import Mathlib

/-!
# Verification of the hand-detection overlay and capture recorder

Shallow embedding of the two source files of the repository:

* `HandDetectionOverlay` (the detection loop `loop` inside
  `startDetectionLoop`): rate limiting, the `isEstimating` in-flight guard,
  landmark remapping from the offscreen (working) buffer to the display
  canvas, and the failure path of the estimation call.
* `WebcamField` (`startRecording`, `handleCancel`, the countdown effect):
  the timed capture recorder with drift-corrected frame acceptance,
  progress reporting, termination and delivery, and cancellation.

Times are modelled as rationals (`ℚ`, milliseconds); frames are opaque and
modelled by the `ℚ` value that `capture()` returned (or `none` when
`capture()` yields no frame).
-/

namespace ASL

/-! ## Detection loop (HandDetectionOverlay) -/

/-- `targetFps = 10` in `startDetectionLoop`. -/
def targetFps : ℚ := 10

/-- `minInterval = 1000 / targetFps` in `startDetectionLoop`. -/
def minInterval : ℚ := 1000 / targetFps

/-- One landmark `[x, y, z]` of a prediction, in working-buffer space. -/
abbrev Landmark : Type := ℚ × ℚ × ℚ

/-- `pred.landmarks` of one detected hand instance. -/
abbrev Prediction : Type := List Landmark

/-- The remapping applied to each landmark (source line
`{ x: pt[0] * (canvas.width / off.width), y: pt[1] * (canvas.height / off.height), z: pt[2] }`),
with `dw × dh` the display (canvas) size and `ww × wh` the working
(offscreen) buffer size. -/
def remapKeypoint (dw dh ww wh : ℚ) (pt : Landmark) : Landmark :=
  (pt.1 * (dw / ww), pt.2.1 * (dh / wh), pt.2.2)

/-- The scheduler state mutated by the loop: `lastEstimateRef` and
`isEstimatingRef`. -/
structure DetState where
  lastEstimate : ℚ
  isEstimating : Bool
deriving DecidableEq

/-- Observable outcome of one execution of the `loop` body:
whether `estimateHands` was invoked, the state of the two refs afterwards,
whether `ctx.clearRect` ran, the keypoints drawn (one list per prediction),
whether the error branch logged, whether `requestAnimationFrame(loop)` was
scheduled, and whether an exception escaped the tick. -/
structure TickOut where
  estimated : Bool
  lastAfter : ℚ
  estimatingAfter : Bool
  cleared : Bool
  drawnKeypoints : List (List Landmark)
  logged : Bool
  rescheduled : Bool
  propagated : Bool
deriving DecidableEq

/-- One execution of the async `loop` body, as a function of the readiness
test `video.readyState === 4`, the clock value `performance.now()`, the
current ref state, the canvas/offscreen sizes and the settled outcome of
`detectorRef.current.estimateHands(off)` (`Except.error` = rejection).
Mirrors the guard order of the source: readiness, rate limit, overlap
guard, then estimate; on success `clearRect` runs and non-empty predictions
are remapped and drawn; on rejection control jumps from the `await` to the
outer `catch` (so `clearRect` is skipped), the error is logged, the flag is
cleared (both by the `finally` and by the `catch`), and the tick still
reschedules. -/
def detTick (ready : Bool) (now : ℚ) (s : DetState) (dw dh ww wh : ℚ)
    (outcome : Except Unit (List Prediction)) : TickOut :=
  if ready then
    if now - s.lastEstimate < minInterval then
      { estimated := false, lastAfter := s.lastEstimate,
        estimatingAfter := s.isEstimating, cleared := false,
        drawnKeypoints := [], logged := false, rescheduled := true,
        propagated := false }
    else if s.isEstimating then
      { estimated := false, lastAfter := s.lastEstimate,
        estimatingAfter := s.isEstimating, cleared := false,
        drawnKeypoints := [], logged := false, rescheduled := true,
        propagated := false }
    else
      match outcome with
      | Except.ok preds =>
        { estimated := true, lastAfter := now, estimatingAfter := false,
          cleared := true,
          drawnKeypoints := preds.map (fun p => p.map (remapKeypoint dw dh ww wh)),
          logged := false, rescheduled := true, propagated := false }
      | Except.error _ =>
        { estimated := true, lastAfter := now, estimatingAfter := false,
          cleared := false, drawnKeypoints := [], logged := true,
          rescheduled := true, propagated := false }
  else
    { estimated := false, lastAfter := s.lastEstimate,
      estimatingAfter := s.isEstimating, cleared := false,
      drawnKeypoints := [], logged := false, rescheduled := true,
      propagated := false }

/-! ### Interleaving model for the in-flight guard

Several loop chains can be live at once (`startDetectionLoop` is re-invoked
by a polling effect), so tick starts and estimation completions interleave.
`inFlight` counts estimation calls that have been started (the
`isEstimatingRef.current = true` write just before `estimateHands`) but not
yet settled (the `finally` clause). -/

structure LoopState where
  isEstimating : Bool
  lastEstimate : ℚ
  inFlight : ℕ
deriving DecidableEq

inductive LoopEv where
  | tick (ready : Bool) (now : ℚ)
  | finish
deriving DecidableEq

/-- Effect of one scheduling event on the shared refs: a tick begins an
estimation only when it passes the readiness test, the rate limit and the
`isEstimatingRef` guard, setting the flag and `lastEstimateRef` before the
call; the completion of a call (its `finally`) clears the flag. -/
def loopStep (s : LoopState) : LoopEv → LoopState
  | LoopEv.tick ready now =>
    if ready then
      if now - s.lastEstimate < minInterval then s
      else if s.isEstimating then s
      else { isEstimating := true, lastEstimate := now, inFlight := s.inFlight + 1 }
    else s
  | LoopEv.finish => { s with isEstimating := false, inFlight := s.inFlight - 1 }

/-- Initial ref state: `isEstimatingRef = false`, `lastEstimateRef = 0`. -/
def loopInit : LoopState := { isEstimating := false, lastEstimate := 0, inFlight := 0 }

def runLoop (evs : List LoopEv) : LoopState := evs.foldl loopStep loopInit

/-- The in-flight counter is tied to the flag. -/
def LoopInv (s : LoopState) : Prop := s.inFlight = if s.isEstimating then 1 else 0

theorem loopStep_inv (s : LoopState) (e : LoopEv) (h : LoopInv s) :
    LoopInv (loopStep s e) := by
  cases e with
  | tick ready now =>
    unfold LoopInv at h ⊢
    unfold loopStep
    by_cases hr : ready = true <;> simp only [hr, if_true, if_false, Bool.false_eq_true]
    · by_cases hlim : now - s.lastEstimate < minInterval <;>
        simp only [hlim, if_true, if_false]
      · exact h
      · by_cases hest : s.isEstimating = true <;> simp only [hest, if_true, if_false] <;>
          simpa [hest] using h
    · exact h
  | finish =>
    unfold LoopInv at h ⊢
    unfold loopStep
    simp only
    split at h <;> simp [h]

theorem runLoop_inv (evs : List LoopEv) : LoopInv (runLoop evs) := by
  unfold runLoop
  have : ∀ s : LoopState, LoopInv s → LoopInv (evs.foldl loopStep s) := by
    induction evs with
    | nil => intro s h; exact h
    | cons e rest ih => intro s h; exact ih _ (loopStep_inv s e h)
  exact this loopInit (by simp [LoopInv, loopInit])

/-- C1: for every sequence of detection-loop events, at most one estimation
call is in flight at any instant: a tick with the `isEstimating` flag set is
a no-op (the estimator is invoked only when the flag is false), a tick that
does start an estimation sets the flag in the same step as the call begins,
and completion of the call clears the flag. -/
theorem detection_mutual_exclusion (evs : List LoopEv) (s s' : LoopState)
    (ready : Bool) (now now' : ℚ)
    (hflag : s.isEstimating = true)
    (hfree : s'.isEstimating = false) (hrate : minInterval ≤ now' - s'.lastEstimate) :
    (runLoop evs).inFlight ≤ 1 ∧
    loopStep s (LoopEv.tick ready now) = s ∧
    (loopStep s' (LoopEv.tick true now')).isEstimating = true ∧
    (loopStep s' (LoopEv.tick true now')).inFlight = s'.inFlight + 1 ∧
    (loopStep s LoopEv.finish).isEstimating = false := by
  have hnl : ¬(now' - s'.lastEstimate < minInterval) := not_lt.mpr hrate
  refine ⟨?_, ?_, ?_, ?_, ?_⟩
  · have h := runLoop_inv evs
    unfold LoopInv at h
    rw [h]; split <;> simp
  · unfold loopStep
    split_ifs
    all_goals simp_all
  · simp [loopStep, hnl, hfree]
  · simp [loopStep, hnl, hfree]
  · simp [loopStep]

/-- Witness for C1 at a concrete input. -/
theorem detection_mutual_exclusion_witness :
    ((⟨true, 0, 1⟩ : LoopState).isEstimating = true ∧
     (⟨false, 0, 0⟩ : LoopState).isEstimating = false ∧
     minInterval ≤ 200 - (⟨false, 0, 0⟩ : LoopState).lastEstimate) ∧
    ((runLoop []).inFlight ≤ 1 ∧
     loopStep ⟨true, 0, 1⟩ (LoopEv.tick true 50) = ⟨true, 0, 1⟩ ∧
     (loopStep ⟨false, 0, 0⟩ (LoopEv.tick true 200)).isEstimating = true ∧
     (loopStep ⟨false, 0, 0⟩ (LoopEv.tick true 200)).inFlight = (⟨false, 0, 0⟩ : LoopState).inFlight + 1 ∧
     (loopStep ⟨true, 0, 1⟩ LoopEv.finish).isEstimating = false) :=
  ⟨⟨by with_unfolding_all decide, by with_unfolding_all decide, by with_unfolding_all decide⟩,
   detection_mutual_exclusion [] ⟨true, 0, 1⟩ ⟨false, 0, 0⟩ true 50 200
     (by with_unfolding_all decide) (by with_unfolding_all decide) (by with_unfolding_all decide)⟩

/-- C5: a detection tick strictly less than `minInterval = 1000/10` ms after
the last recorded estimate timestamp makes no estimation call and only
reschedules (refs and overlay untouched); a tick at least `minInterval`
after the last estimate with the source ready and no estimation in flight
does call the estimator. -/
theorem rate_limit_gate (ready : Bool) (now now' : ℚ) (s s' : DetState)
    (dw dh ww wh : ℚ) (outcome outcome' : Except Unit (List Prediction))
    (hlim : now - s.lastEstimate < minInterval)
    (hlim' : minInterval ≤ now' - s'.lastEstimate) (hfree' : s'.isEstimating = false) :
    (detTick ready now s dw dh ww wh outcome).estimated = false ∧
    (detTick ready now s dw dh ww wh outcome).rescheduled = true ∧
    (detTick ready now s dw dh ww wh outcome).lastAfter = s.lastEstimate ∧
    (detTick ready now s dw dh ww wh outcome).estimatingAfter = s.isEstimating ∧
    (detTick ready now s dw dh ww wh outcome).drawnKeypoints = [] ∧
    (detTick ready now s dw dh ww wh outcome).cleared = false ∧
    (detTick true now' s' dw dh ww wh outcome').estimated = true := by
  have hnl : ¬(now' - s'.lastEstimate < minInterval) := not_lt.mpr hlim'
  have hskip : ∀ t : Prop, (detTick ready now s dw dh ww wh outcome) =
      { estimated := false, lastAfter := s.lastEstimate,
        estimatingAfter := s.isEstimating, cleared := false,
        drawnKeypoints := [], logged := false, rescheduled := true,
        propagated := false } := by
    intro _
    unfold detTick
    by_cases hr : ready = true <;> simp [hr, hlim]
  rw [hskip True]
  refine ⟨rfl, rfl, rfl, rfl, rfl, rfl, ?_⟩
  unfold detTick
  simp only [if_true, hnl, if_false, hfree']
  cases outcome' <;> rfl

/-- Witness for C5 at a concrete input. -/
theorem rate_limit_gate_witness :
    ((50 : ℚ) - (⟨0, false⟩ : DetState).lastEstimate < minInterval ∧
     minInterval ≤ (200 : ℚ) - (⟨0, false⟩ : DetState).lastEstimate ∧
     (⟨0, false⟩ : DetState).isEstimating = false) ∧
    ((detTick true 50 ⟨0, false⟩ 640 480 320 240 (Except.ok [])).estimated = false ∧
     (detTick true 50 ⟨0, false⟩ 640 480 320 240 (Except.ok [])).rescheduled = true ∧
     (detTick true 50 ⟨0, false⟩ 640 480 320 240 (Except.ok [])).lastAfter = (⟨0, false⟩ : DetState).lastEstimate ∧
     (detTick true 50 ⟨0, false⟩ 640 480 320 240 (Except.ok [])).estimatingAfter = (⟨0, false⟩ : DetState).isEstimating ∧
     (detTick true 50 ⟨0, false⟩ 640 480 320 240 (Except.ok [])).drawnKeypoints = [] ∧
     (detTick true 50 ⟨0, false⟩ 640 480 320 240 (Except.ok [])).cleared = false ∧
     (detTick true 200 ⟨0, false⟩ 640 480 320 240 (Except.ok [])).estimated = true) :=
  ⟨⟨by with_unfolding_all decide, by with_unfolding_all decide, by with_unfolding_all decide⟩,
   rate_limit_gate true 50 200 ⟨0, false⟩ ⟨0, false⟩ 640 480 320 240
     (Except.ok []) (Except.ok []) (by with_unfolding_all decide) (by with_unfolding_all decide) (by with_unfolding_all decide)⟩

/-- C6 counterexample: at a concrete failing tick (ready source, rate limit
passed, estimator rejects) the code skips `ctx.clearRect` — the exception
raised at the `await` jumps to the outer `catch` before the clear at line
119 runs — so the overlay is NOT cleared, contradicting the claim that a
failing tick is rendered as an empty result. -/
theorem failure_clear_counterexample :
    (detTick true 200 ⟨0, false⟩ 640 480 320 240 (Except.error ())).estimated = true ∧
    (detTick true 200 ⟨0, false⟩ 640 480 320 240 (Except.error ())).logged = true ∧
    ¬(detTick true 200 ⟨0, false⟩ 640 480 320 240 (Except.error ())).cleared = true := by
  with_unfolding_all decide

/-- C6 amended: if an estimation call rejects, the failure is logged, the
in-flight flag is released on that exit path (by the `finally` and again by
the `catch`), the error is not propagated, nothing is drawn, and the loop
schedules the next tick with no retry and no backoff — but the overlay is
NOT cleared on the failure path (the clear step is skipped, so the previous
drawing persists rather than the tick being rendered as an empty result). -/
theorem failure_path_behavior (now : ℚ) (s : DetState) (dw dh ww wh : ℚ)
    (hlim : minInterval ≤ now - s.lastEstimate) (hfree : s.isEstimating = false) :
    (detTick true now s dw dh ww wh (Except.error ())).estimated = true ∧
    (detTick true now s dw dh ww wh (Except.error ())).logged = true ∧
    (detTick true now s dw dh ww wh (Except.error ())).estimatingAfter = false ∧
    (detTick true now s dw dh ww wh (Except.error ())).propagated = false ∧
    (detTick true now s dw dh ww wh (Except.error ())).rescheduled = true ∧
    (detTick true now s dw dh ww wh (Except.error ())).drawnKeypoints = [] ∧
    (detTick true now s dw dh ww wh (Except.error ())).cleared = false ∧
    (detTick true now s dw dh ww wh (Except.error ())).lastAfter = now := by
  have hnl : ¬(now - s.lastEstimate < minInterval) := not_lt.mpr hlim
  unfold detTick
  simp [hnl, hfree]

/-- Witness for C6's amended theorem at a concrete input. -/
theorem failure_path_behavior_witness :
    (minInterval ≤ (200 : ℚ) - (⟨0, false⟩ : DetState).lastEstimate ∧
     (⟨0, false⟩ : DetState).isEstimating = false) ∧
    ((detTick true 200 ⟨0, false⟩ 640 480 320 240 (Except.error ())).estimated = true ∧
     (detTick true 200 ⟨0, false⟩ 640 480 320 240 (Except.error ())).logged = true ∧
     (detTick true 200 ⟨0, false⟩ 640 480 320 240 (Except.error ())).estimatingAfter = false ∧
     (detTick true 200 ⟨0, false⟩ 640 480 320 240 (Except.error ())).propagated = false ∧
     (detTick true 200 ⟨0, false⟩ 640 480 320 240 (Except.error ())).rescheduled = true ∧
     (detTick true 200 ⟨0, false⟩ 640 480 320 240 (Except.error ())).drawnKeypoints = [] ∧
     (detTick true 200 ⟨0, false⟩ 640 480 320 240 (Except.error ())).cleared = false ∧
     (detTick true 200 ⟨0, false⟩ 640 480 320 240 (Except.error ())).lastAfter = 200) :=
  ⟨⟨by with_unfolding_all decide, by with_unfolding_all decide⟩,
   failure_path_behavior 200 ⟨0, false⟩ 640 480 320 240 (by with_unfolding_all decide) (by with_unfolding_all decide)⟩

/-- C4: every landmark at `(wx, wy)` in working-buffer space is remapped to
display space as exactly `(wx*dw/ww, wy*dh/wh)` (axis-wise multiplication
by displaySize/workingSize, `z` untouched), and a successful detection tick
applies this remapping to every landmark of every detected instance. -/
theorem landmark_remap_formula (dw dh ww wh wx wy wz now last : ℚ)
    (preds : List Prediction) (hlim : minInterval ≤ now - last) :
    remapKeypoint dw dh ww wh (wx, wy, wz) = (wx * dw / ww, wy * dh / wh, wz) ∧
    (detTick true now ⟨last, false⟩ dw dh ww wh (Except.ok preds)).drawnKeypoints
      = preds.map (fun p => p.map (remapKeypoint dw dh ww wh)) := by
  constructor
  · unfold remapKeypoint
    simp [mul_div_assoc]
  · have hnl : ¬(now - (⟨last, false⟩ : DetState).lastEstimate < minInterval) :=
      not_lt.mpr hlim
    unfold detTick
    simp [hnl]

/-- Witness for C4 at a concrete non-square, non-1:1 ratio input
(display 640×480, working buffer 320×180: scale factors 2 and 8/3). -/
theorem landmark_remap_formula_witness :
    minInterval ≤ (200 : ℚ) - 0 ∧
    (remapKeypoint 640 480 320 180 (100, 90, 5) = (100 * 640 / 320, 90 * 480 / 180, 5) ∧
     (detTick true 200 ⟨0, false⟩ 640 480 320 180
        (Except.ok [[(100, 90, 5)]])).drawnKeypoints
       = [[(100, 90, 5)]].map (fun p => p.map (remapKeypoint 640 480 320 180))) :=
  ⟨by with_unfolding_all decide, landmark_remap_formula 640 480 320 180 100 90 5 200 0 [[(100, 90, 5)]] (by with_unfolding_all decide)⟩

/-! ## Capture recorder (WebcamField.startRecording interval callback)

Constants from the component: `RECORDING_DURATION = 3000`,
`FRAMES_PER_SECOND = 15`, `frameInterval = 1000 / FRAMES_PER_SECOND`.
The sampling interval is scheduled at `Math.floor(frameInterval * 0.8)` ms. -/

def RECORDING_DURATION : ℚ := 3000

def FRAMES_PER_SECOND : ℚ := 15

def frameInterval : ℚ := 1000 / FRAMES_PER_SECOND

/-- `Math.floor(frameInterval * 0.8)`, the `setInterval` period. -/
def tickPeriodMs : ℤ := ⌊frameInterval * (0.8 : ℚ)⌋

/-- The mutable state of one recording session: the `frames` and
`frameTimestampsRef` arrays, `startTime`, `lastFrameTime`, the last value
passed to `setRecordingProgress` (`progress`), whether the interval has
been cleared (`stopped`), the full list of per-tick progress reports, and
the argument of the `onCapture` delivery if it happened. -/
structure RSess where
  startTime : ℚ
  lastFrameTime : ℚ
  frames : List ℚ
  timestamps : List ℚ
  reports : List ℚ
  progress : ℚ
  stopped : Bool
  delivered : Option (List ℚ)
deriving DecidableEq

/-- Session state right after the stabilization `setTimeout` body runs:
`frames = []`, `frameTimestampsRef.current = []`,
`startTime = lastFrameTime = Date.now()`. -/
def recInit (st : ℚ) : RSess :=
  { startTime := st, lastFrameTime := st, frames := [], timestamps := [],
    reports := [], progress := 0, stopped := false, delivered := none }

/-- One firing of the sampling `setInterval` callback, at clock value
`currentTime = Date.now()`, with `frame = capture()` (`none` when the
screenshot is unavailable). Mirrors the source order: acceptance test and
push, then progress computation and report, then the termination test
(`elapsed >= RECORDING_DURATION`) which clears the interval, resets the
progress to 0 and delivers the collected frames via `onCapture`. A cleared
interval no longer fires, so a stopped session is left unchanged. -/
def recTick (s : RSess) (currentTime : ℚ) (frame : Option ℚ) : RSess :=
  if s.stopped then s
  else
    let s1 :=
      match frame with
      | some f =>
        if |currentTime - s.lastFrameTime - frameInterval| < frameInterval * (0.2 : ℚ) then
          { s with frames := s.frames ++ [f],
                   timestamps := s.timestamps ++ [currentTime],
                   lastFrameTime := currentTime }
        else s
      | none => s
    let progress := min ((currentTime - s.startTime) / RECORDING_DURATION * 100) 100
    let s2 := { s1 with reports := s1.reports ++ [progress], progress := progress }
    if RECORDING_DURATION ≤ currentTime - s.startTime then
      { s2 with stopped := true, progress := 0, delivered := some s2.frames }
    else s2

/-- Run a whole sequence of sampling ticks `(currentTime, frame)`. -/
def runRec (s : RSess) (trace : List (ℚ × Option ℚ)) : RSess :=
  trace.foldl (fun t p => recTick t p.1 p.2) s

/-- The claim's progress formula, `min(elapsedMs / durationMs, 1) × 100`
(the source computes `Math.min(elapsed / RECORDING_DURATION * 100, 100)`;
the two agree, see `progress_reporting`). -/
def progressVal (start now : ℚ) : ℚ :=
  min ((now - start) / RECORDING_DURATION) 1 * 100

/-- The acceptance test of the source,
`Math.abs(timeSinceLastFrame - frameInterval) < frameInterval * 0.2`,
together with frame availability (`if (frame)`). -/
def accepts (s : RSess) (currentTime : ℚ) (frame : Option ℚ) : Prop :=
  frame.isSome = true ∧
    |currentTime - s.lastFrameTime - frameInterval| < frameInterval * (0.2 : ℚ)

instance (s : RSess) (currentTime : ℚ) (frame : Option ℚ) :
    Decidable (accepts s currentTime frame) := by
  unfold accepts; infer_instance

/-! ### Step lemmas for one sampling tick -/

theorem recTick_stopped (s : RSess) (t : ℚ) (f : Option ℚ) (hs : s.stopped = true) :
    recTick s t f = s := by
  unfold recTick
  simp [hs]

theorem runRec_stopped (trace : List (ℚ × Option ℚ)) (s : RSess) (hs : s.stopped = true) :
    runRec s trace = s := by
  induction trace with
  | nil => rfl
  | cons p rest ih =>
    unfold runRec at ih ⊢
    simp only [List.foldl_cons, recTick_stopped s p.1 p.2 hs]
    exact ih

theorem recTick_startTime (s : RSess) (t : ℚ) (f : Option ℚ) :
    (recTick s t f).startTime = s.startTime := by
  unfold recTick
  cases f <;> dsimp only <;> split_ifs <;> rfl

theorem recTick_accept (s : RSess) (t fv : ℚ) (hs : s.stopped = false)
    (ha : |t - s.lastFrameTime - frameInterval| < frameInterval * (0.2 : ℚ)) :
    (recTick s t (some fv)).frames = s.frames ++ [fv] ∧
    (recTick s t (some fv)).timestamps = s.timestamps ++ [t] ∧
    (recTick s t (some fv)).lastFrameTime = t := by
  unfold recTick
  simp only [hs, Bool.false_eq_true, if_false, ha, if_true]
  split_ifs <;> exact ⟨rfl, rfl, rfl⟩

theorem recTick_reject (s : RSess) (t : ℚ) (f : Option ℚ) (hs : s.stopped = false)
    (hr : ¬accepts s t f) :
    (recTick s t f).frames = s.frames ∧
    (recTick s t f).timestamps = s.timestamps ∧
    (recTick s t f).lastFrameTime = s.lastFrameTime := by
  unfold recTick
  cases f with
  | none =>
    simp only [hs, Bool.false_eq_true, if_false]
    split_ifs <;> exact ⟨rfl, rfl, rfl⟩
  | some fv =>
    have hna : ¬(|t - s.lastFrameTime - frameInterval| < frameInterval * (0.2 : ℚ)) :=
      fun h => hr ⟨rfl, h⟩
    simp only [hs, Bool.false_eq_true, if_false, hna]
    split_ifs <;> exact ⟨rfl, rfl, rfl⟩

theorem recTick_stopped_after (s : RSess) (t : ℚ) (f : Option ℚ) (hs : s.stopped = false) :
    (recTick s t f).stopped = decide (RECORDING_DURATION ≤ t - s.startTime) := by
  unfold recTick
  cases f <;> simp only [hs, Bool.false_eq_true, if_false] <;> split_ifs <;> simp_all

/-! ### Uniformly spaced tick traces

`uniformTrace c n` is a synthetic clock whose ticks occur at `c, 2c, …, nc`
milliseconds after the session start, with a frame available at each tick
(the captured frame is modelled by its timestamp). -/

def uniformTrace (c : ℚ) (n : ℕ) : List (ℚ × Option ℚ) :=
  (List.range n).map (fun k : ℕ => (((k : ℚ) + 1) * c, some (((k : ℚ) + 1) * c)))

/-- The synthetic clock of the claim: exactly 66.7 ms between ticks. -/
def synthTrace (n : ℕ) : List (ℚ × Option ℚ) := uniformTrace (667 / 10) n

theorem uniformTrace_succ (c : ℚ) (m : ℕ) :
    uniformTrace c (m + 1)
      = uniformTrace c m ++ [(((m : ℚ) + 1) * c, some (((m : ℚ) + 1) * c))] := by
  unfold uniformTrace
  rw [List.range_succ, List.map_append, List.map_singleton]

theorem runRec_snoc (s : RSess) (trace : List (ℚ × Option ℚ)) (p : ℚ × Option ℚ) :
    runRec s (trace ++ [p]) = recTick (runRec s trace) p.1 p.2 := by
  unfold runRec
  rw [List.foldl_append]
  rfl

/-- Invariant of a uniform trace whose spacing is inside the tolerance
band, while the session duration has not yet elapsed: every tick is
accepted. -/
theorem uniform_inv (c : ℚ) (habs : |c - frameInterval| < frameInterval * (0.2 : ℚ))
    (hc : 0 ≤ c) (n : ℕ) (hn : (n : ℚ) * c < RECORDING_DURATION) :
    (runRec (recInit 0) (uniformTrace c n)).startTime = 0 ∧
    (runRec (recInit 0) (uniformTrace c n)).lastFrameTime = (n : ℚ) * c ∧
    (runRec (recInit 0) (uniformTrace c n)).frames.length = n ∧
    (runRec (recInit 0) (uniformTrace c n)).stopped = false := by
  induction n with
  | zero =>
    refine ⟨rfl, ?_, rfl, rfl⟩
    show (recInit 0).lastFrameTime = ((0 : ℕ) : ℚ) * c
    simp [recInit]
  | succ m ih =>
    have hmc : (m : ℚ) * c < RECORDING_DURATION := by
      have h2 : ((m + 1 : ℕ) : ℚ) * c < RECORDING_DURATION := hn
      push_cast at h2
      nlinarith
    obtain ⟨h0, h1, h2, h3⟩ := ih hmc
    have hrun : runRec (recInit 0) (uniformTrace c (m + 1))
        = recTick (runRec (recInit 0) (uniformTrace c m))
            (((m : ℚ) + 1) * c) (some (((m : ℚ) + 1) * c)) := by
      rw [uniformTrace_succ, runRec_snoc]
    set s := runRec (recInit 0) (uniformTrace c m) with hsdef
    have hacc : |((m : ℚ) + 1) * c - s.lastFrameTime - frameInterval|
        < frameInterval * (0.2 : ℚ) := by
      rw [h1]
      have he : ((m : ℚ) + 1) * c - (m : ℚ) * c - frameInterval = c - frameInterval := by
        ring
      rw [he]
      exact habs
    obtain ⟨hf, ht, hl⟩ := recTick_accept s (((m : ℚ) + 1) * c) (((m : ℚ) + 1) * c) h3 hacc
    refine ⟨?_, ?_, ?_, ?_⟩
    · rw [hrun, recTick_startTime]
      exact h0
    · rw [hrun, hl]
      push_cast
      ring
    · rw [hrun, hf, List.length_append, h2]
      rfl
    · rw [hrun, recTick_stopped_after _ _ _ h3]
      simp only [decide_eq_false_iff_not, not_le]
      rw [h0]
      push_cast at hn
      linarith

/-- Every tick of an in-tolerance uniform trace is accepted, the last one
possibly being the terminating tick. -/
theorem uniform_frames (c : ℚ) (habs : |c - frameInterval| < frameInterval * (0.2 : ℚ))
    (hc : 0 ≤ c) (n : ℕ) (hn : ((n : ℚ) - 1) * c < RECORDING_DURATION) :
    (runRec (recInit 0) (uniformTrace c n)).frames.length = n := by
  cases n with
  | zero => rfl
  | succ m =>
    have hmc : (m : ℚ) * c < RECORDING_DURATION := by
      push_cast at hn
      nlinarith
    obtain ⟨h0, h1, h2, h3⟩ := uniform_inv c habs hc m hmc
    have hrun : runRec (recInit 0) (uniformTrace c (m + 1))
        = recTick (runRec (recInit 0) (uniformTrace c m))
            (((m : ℚ) + 1) * c) (some (((m : ℚ) + 1) * c)) := by
      rw [uniformTrace_succ, runRec_snoc]
    set s := runRec (recInit 0) (uniformTrace c m) with hsdef
    have hacc : |((m : ℚ) + 1) * c - s.lastFrameTime - frameInterval|
        < frameInterval * (0.2 : ℚ) := by
      rw [h1]
      have he : ((m : ℚ) + 1) * c - (m : ℚ) * c - frameInterval = c - frameInterval := by
        ring
      rw [he]
      exact habs
    rw [hrun, (recTick_accept s (((m : ℚ) + 1) * c) (((m : ℚ) + 1) * c) h3 hacc).1,
      List.length_append, h2]
    rfl

theorem tolerance_667 : |(667 / 10 : ℚ) - frameInterval| < frameInterval * (0.2 : ℚ) := by
  have h1 : (667 / 10 : ℚ) - frameInterval = 1 / 30 := by
    unfold frameInterval FRAMES_PER_SECOND
    norm_num
  rw [h1, abs_of_pos (by norm_num)]
  unfold frameInterval FRAMES_PER_SECOND
  norm_num

theorem synth_frames (n : ℕ) (hn : n ≤ 45) :
    (runRec (recInit 0) (synthTrace n)).frames.length = n := by
  unfold synthTrace
  apply uniform_frames (667 / 10) tolerance_667 (by norm_num)
  have hq : (n : ℚ) ≤ 45 := by exact_mod_cast hn
  unfold RECORDING_DURATION
  nlinarith
/-- C2: during a recording session (interval not yet cleared), a sampling
tick appends a frame iff a frame is available and
`|timeSinceLastFrame - frameInterval| < frameInterval * 0.2`; and under a
synthetic clock that advances exactly 66.7 ms between ticks (with a frame
available each time), every tick of the 3000 ms session is accepted. -/
theorem sampling_acceptance_iff (s : RSess) (now : ℚ) (frame : Option ℚ) (n : ℕ)
    (hs : s.stopped = false) (hn : n ≤ 45) :
    ((recTick s now frame).frames.length = s.frames.length + 1 ↔ accepts s now frame) ∧
    (runRec (recInit 0) (synthTrace n)).frames.length = n := by
  constructor
  · constructor
    · intro hlen
      by_contra hr
      have := (recTick_reject s now frame hs hr).1
      rw [this] at hlen
      omega
    · rintro ⟨hsome, habs⟩
      obtain ⟨fv, rfl⟩ := Option.isSome_iff_exists.mp hsome
      have := (recTick_accept s now fv hs habs).1
      rw [this, List.length_append]
      rfl
  · exact synth_frames n hn

/-- Witness for C2 at a concrete input: a live session whose previous
accepted frame is 66.7 ms old accepts the tick, and 45 synthetic ticks
collect 45 frames. -/
theorem sampling_acceptance_iff_witness :
    ((recInit 0).stopped = false ∧ 45 ≤ 45) ∧
    (((recTick (recInit 0) (667 / 10) (some 1)).frames.length
        = (recInit 0).frames.length + 1 ↔ accepts (recInit 0) (667 / 10) (some 1)) ∧
     (runRec (recInit 0) (synthTrace 45)).frames.length = 45) :=
  ⟨⟨rfl, by norm_num⟩,
   sampling_acceptance_iff (recInit 0) (667 / 10) (some 1) 45 rfl (by norm_num)⟩

/-! ### C10: a rejected-too-long gap never recovers -/

theorem not_accepts_of_gap (s : RSess) (t : ℚ) (f : Option ℚ)
    (h : frameInterval * (0.2 : ℚ) ≤ |t - s.lastFrameTime - frameInterval|) :
    ¬accepts s t f := fun ha => absurd ha.2 (not_lt.mpr h)

/-- A run in which every tick is out of tolerance relative to the starting
`lastFrameTime` accepts nothing: `frames` and `lastFrameTime` are
unchanged. -/
theorem reject_run (trace : List (ℚ × Option ℚ)) (s : RSess)
    (h : ∀ p ∈ trace, frameInterval * (0.2 : ℚ) ≤ |p.1 - s.lastFrameTime - frameInterval|) :
    (runRec s trace).frames = s.frames ∧
    (runRec s trace).lastFrameTime = s.lastFrameTime := by
  induction trace generalizing s with
  | nil => exact ⟨rfl, rfl⟩
  | cons p rest ih =>
    have hstep : runRec s (p :: rest) = runRec (recTick s p.1 p.2) rest := rfl
    cases hstop : s.stopped with
    | true =>
      rw [hstep, recTick_stopped s p.1 p.2 hstop]
      exact ih s (fun q hq => h q (List.mem_cons_of_mem p hq))
    | false =>
      have hrej := recTick_reject s p.1 p.2 hstop
        (not_accepts_of_gap s p.1 p.2 (h p (List.mem_cons_self p rest)))
      have hlast : (recTick s p.1 p.2).lastFrameTime = s.lastFrameTime := hrej.2.2
      have hrec := ih (recTick s p.1 p.2)
        (fun q hq => by rw [hlast]; exact h q (List.mem_cons_of_mem p hq))
      rw [hstep]
      exact ⟨hrec.1.trans hrej.1, hrec.2.trans hlast⟩

/-- Every tick of the exactly-on-schedule 53 ms trace is out of tolerance
relative to the session start: the first tick is 53 ms < 160/3 ms (below
the band), later ticks are ≥ 106 ms (above it). -/
theorem gap_53 (n : ℕ) (p : ℚ × Option ℚ) (hp : p ∈ uniformTrace 53 n) :
    frameInterval * (0.2 : ℚ) ≤ |p.1 - (recInit 0).lastFrameTime - frameInterval| := by
  unfold uniformTrace at hp
  obtain ⟨k, hk, hpk⟩ := List.mem_map.mp hp
  have hp1 : p.1 = ((k : ℚ) + 1) * 53 := by rw [← hpk]
  rw [hp1]
  have hlz : (recInit 0).lastFrameTime = 0 := rfl
  rw [hlz, sub_zero]
  rcases Nat.eq_zero_or_pos k with h0 | h1
  · subst h0
    have he : (((0 : ℕ) : ℚ) + 1) * 53 - frameInterval = -(41 / 3) := by
      unfold frameInterval FRAMES_PER_SECOND
      norm_num
    rw [he, abs_neg, abs_of_pos (by norm_num)]
    unfold frameInterval FRAMES_PER_SECOND
    norm_num
  · have hk1 : (1 : ℚ) ≤ (k : ℚ) := by exact_mod_cast h1
    have hpos : 0 < ((k : ℚ) + 1) * 53 - frameInterval := by
      unfold frameInterval FRAMES_PER_SECOND
      nlinarith
    rw [abs_of_pos hpos]
    unfold frameInterval FRAMES_PER_SECOND
    nlinarith

/-- C10: `lastFrameTime` changes only on acceptance, so once a tick's
spacing from the last accepted frame exceeds 1.2 × `frameInterval`, that
tick and every later tick of the session are rejected and no frame is ever
accepted again; moreover the implemented tick period is
`Math.floor(frameInterval * 0.8) = 53` ms, a fresh session rejects a tick
53 ms after start (outside the strict tolerance band), and a timer firing
exactly on the 53 ms schedule collects zero frames, for any number of
ticks. -/
theorem acceptance_no_recovery (s : RSess) (t : ℚ) (fr : Option ℚ)
    (trace : List (ℚ × Option ℚ)) (n : ℕ)
    (hgap : frameInterval * (6 / 5) < t - s.lastFrameTime)
    (hmono : ∀ p ∈ trace, t ≤ p.1) :
    (runRec s ((t, fr) :: trace)).frames = s.frames ∧
    (runRec s ((t, fr) :: trace)).lastFrameTime = s.lastFrameTime ∧
    tickPeriodMs = 53 ∧
    ¬accepts (recInit 0) 53 (some 53) ∧
    (runRec (recInit 0) (uniformTrace 53 n)).frames = [] := by
  have hIval : frameInterval = 200 / 3 := by
    unfold frameInterval FRAMES_PER_SECOND
    norm_num
  have hhead : ∀ u : ℚ, t ≤ u →
      frameInterval * (0.2 : ℚ) ≤ |u - s.lastFrameTime - frameInterval| := by
    intro u hu
    have h1 : frameInterval * (0.2 : ℚ) ≤ u - s.lastFrameTime - frameInterval := by
      rw [hIval] at hgap ⊢
      norm_num at hgap ⊢
      linarith
    exact h1.trans (le_abs_self _)
  have hall : ∀ p ∈ (t, fr) :: trace,
      frameInterval * (0.2 : ℚ) ≤ |p.1 - s.lastFrameTime - frameInterval| := by
    intro p hp
    rcases List.mem_cons.mp hp with h | h
    · rw [h]
      exact hhead t le_rfl
    · exact hhead p.1 (hmono p h)
  obtain ⟨hf, hl⟩ := reject_run ((t, fr) :: trace) s hall
  refine ⟨hf, hl, by with_unfolding_all decide, ?_, ?_⟩
  · apply not_accepts_of_gap
    have hlz : (recInit 0).lastFrameTime = 0 := rfl
    rw [hlz, sub_zero]
    have he : (53 : ℚ) - frameInterval = -(41 / 3) := by
      rw [hIval]
      norm_num
    rw [he, abs_neg, abs_of_pos (by norm_num), hIval]
    norm_num
  · exact (reject_run (uniformTrace 53 n) (recInit 0) (gap_53 n)).1

/-- Witness for C10 at a concrete input: a fresh session, a tick 100 ms
after the last accepted frame (gap > 80 ms), one later tick. -/
theorem acceptance_no_recovery_witness :
    (frameInterval * (6 / 5) < 100 - (recInit 0).lastFrameTime ∧
     (∀ p ∈ [((150 : ℚ), some (2 : ℚ))], (100 : ℚ) ≤ p.1)) ∧
    ((runRec (recInit 0) ((100, some 1) :: [(150, some 2)])).frames = (recInit 0).frames ∧
     (runRec (recInit 0) ((100, some 1) :: [(150, some 2)])).lastFrameTime
       = (recInit 0).lastFrameTime ∧
     tickPeriodMs = 53 ∧
     ¬accepts (recInit 0) 53 (some 53) ∧
     (runRec (recInit 0) (uniformTrace 53 2)).frames = []) :=
  ⟨⟨by with_unfolding_all decide, by with_unfolding_all decide⟩,
   acceptance_no_recovery (recInit 0) 100 (some 1) [(150, some 2)] 2
     (by with_unfolding_all decide) (by with_unfolding_all decide)⟩

/-! ### C7: bound on the number of collected frames -/

/-- An accepted tick is more than `160/3` ms (= 0.8 × `frameInterval`)
after the previously accepted frame. -/
theorem accept_spacing (s : RSess) (t : ℚ)
    (ha : |t - s.lastFrameTime - frameInterval| < frameInterval * (0.2 : ℚ)) :
    s.lastFrameTime + 160 / 3 < t := by
  have h := (abs_lt.mp ha).1
  unfold frameInterval FRAMES_PER_SECOND at h
  norm_num at h
  linarith

/-- Invariant tying the number of accepted frames to the elapsed time of
the last accepted frame: while the interval is live, the last accepted
frame is strictly inside the 3000 ms window and accepted frames are spaced
more than `160/3` ms apart, so their count is at most 56; the terminating
tick can add at most one more. -/
def framesInv (s : RSess) : Prop :=
  (s.stopped = false →
     s.lastFrameTime - s.startTime < RECORDING_DURATION ∧
     (s.frames.length : ℚ) * (160 / 3) ≤ s.lastFrameTime - s.startTime) ∧
  (s.stopped = true → s.frames.length ≤ 57)

theorem framesInv_init (st : ℚ) : framesInv (recInit st) := by
  constructor
  · intro _
    constructor
    · show st - st < RECORDING_DURATION
      unfold RECORDING_DURATION
      norm_num
    · show ((List.length [] : ℕ) : ℚ) * (160 / 3) ≤ st - st
      norm_num
  · intro h
    simp [recInit] at h

theorem framesInv_live_len (s : RSess)
    (hlt : s.lastFrameTime - s.startTime < RECORDING_DURATION)
    (hle : (s.frames.length : ℚ) * (160 / 3) ≤ s.lastFrameTime - s.startTime) :
    s.frames.length ≤ 56 := by
  by_contra hgt
  push_neg at hgt
  have h57 : (57 : ℚ) ≤ (s.frames.length : ℚ) := by exact_mod_cast hgt
  unfold RECORDING_DURATION at hlt
  nlinarith

theorem framesInv_len (s : RSess) (h : framesInv s) : s.frames.length ≤ 57 := by
  cases hstop : s.stopped with
  | true => exact h.2 hstop
  | false =>
    obtain ⟨hlt, hle⟩ := h.1 hstop
    exact Nat.le_succ_of_le (framesInv_live_len s hlt hle)

theorem framesInv_step (s : RSess) (t : ℚ) (f : Option ℚ) (h : framesInv s) :
    framesInv (recTick s t f) := by
  cases hstop : s.stopped with
  | true =>
    rw [recTick_stopped s t f hstop]
    exact h
  | false =>
    obtain ⟨hlt, hle⟩ := h.1 hstop
    have hst := recTick_startTime s t f
    have hstafter := recTick_stopped_after s t f hstop
    by_cases hacc : accepts s t f
    · obtain ⟨fv, hfv⟩ := Option.isSome_iff_exists.mp hacc.1
      subst hfv
      obtain ⟨hf, hts, hl⟩ := recTick_accept s t fv hstop hacc.2
      have hsp := accept_spacing s t hacc.2
      have hlen : (recTick s t (some fv)).frames.length = s.frames.length + 1 := by
        rw [hf, List.length_append]
        rfl
      constructor
      · intro hns
        rw [hns] at hstafter
        have hterm : t - s.startTime < RECORDING_DURATION := by
          have := hstafter.symm
          simpa using this
        refine ⟨?_, ?_⟩
        · rw [hl, hst]
          exact hterm
        · rw [hl, hst, hlen]
          push_cast
          nlinarith
      · intro _
        have hold := framesInv_live_len s hlt hle
        omega
    · obtain ⟨hf, hts, hl⟩ := recTick_reject s t f hstop hacc
      constructor
      · intro _
        rw [hf, hl, hst]
        exact ⟨hlt, hle⟩
      · intro _
        rw [hf]
        exact Nat.le_succ_of_le (framesInv_live_len s hlt hle)

theorem runRec_framesInv (trace : List (ℚ × Option ℚ)) (s : RSess) (h : framesInv s) :
    framesInv (runRec s trace) := by
  induction trace generalizing s with
  | nil => exact h
  | cons p rest ih =>
    have hstep : runRec s (p :: rest) = runRec (recTick s p.1 p.2) rest := rfl
    rw [hstep]
    exact ih (recTick s p.1 p.2) (framesInv_step s p.1 p.2 h)

/-- C7 counterexample: a tick whose elapsed time equals `RECORDING_DURATION`
still appends a frame (acceptance is checked before the termination check):
after 49 accepted ticks 60 ms apart, the tick at `currentTime = 3000` has
`elapsed = 3000 ≥ RECORDING_DURATION`, yet the frame count grows from 49 to
50 — and this tick is the terminating one. -/
theorem terminal_tick_append_counterexample :
    (runRec (recInit 0) (uniformTrace 60 49)).stopped = false ∧
    RECORDING_DURATION ≤ (3000 : ℚ) - (runRec (recInit 0) (uniformTrace 60 49)).startTime ∧
    (recTick (runRec (recInit 0) (uniformTrace 60 49)) 3000 (some 3000)).frames.length
      = (runRec (recInit 0) (uniformTrace 60 49)).frames.length + 1 ∧
    (runRec (recInit 0) (uniformTrace 60 49)).frames.length = 49 ∧
    (recTick (runRec (recInit 0) (uniformTrace 60 49)) 3000 (some 3000)).stopped = true := by
  have habs : |(60 : ℚ) - frameInterval| < frameInterval * (0.2 : ℚ) := by
    have he : (60 : ℚ) - frameInterval = -(20 / 3) := by
      unfold frameInterval FRAMES_PER_SECOND
      norm_num
    rw [he, abs_neg, abs_of_pos (by norm_num)]
    unfold frameInterval FRAMES_PER_SECOND
    norm_num
  obtain ⟨h0, h1, h2, h3⟩ := uniform_inv 60 habs (by norm_num) 49
    (by unfold RECORDING_DURATION; push_cast; norm_num)
  set s49 := runRec (recInit 0) (uniformTrace 60 49) with hs49
  have hacc : |(3000 : ℚ) - s49.lastFrameTime - frameInterval|
      < frameInterval * (0.2 : ℚ) := by
    rw [h1]
    have he : (3000 : ℚ) - ((49 : ℕ) : ℚ) * 60 - frameInterval = -(20 / 3) := by
      unfold frameInterval FRAMES_PER_SECOND
      push_cast
      norm_num
    rw [he, abs_neg, abs_of_pos (by norm_num)]
    unfold frameInterval FRAMES_PER_SECOND
    norm_num
  refine ⟨h3, ?_, ?_, h2, ?_⟩
  · rw [h0]
    unfold RECORDING_DURATION
    norm_num
  · rw [(recTick_accept s49 3000 3000 h3 hacc).1, List.length_append]
    rfl
  · rw [recTick_stopped_after s49 3000 (some 3000) h3, h0]
    unfold RECORDING_DURATION
    norm_num

/-- C7 amended: a stopped session's ticks are no-ops, so frames are
appended only while the sampling interval is active; while the session is
live the last accepted frame is strictly inside the `RECORDING_DURATION`
window (only the single terminating tick can append a frame at
`elapsed ≥ RECORDING_DURATION`); and the number of collected frames is
bounded by 57 ≈ `RECORDING_DURATION` / (0.8 × `frameInterval`) + 1 — not
by `RECORDING_DURATION / frameInterval` = 45. -/
theorem frames_append_bound (st : ℚ) (trace : List (ℚ × Option ℚ))
    (s' : RSess) (now' : ℚ) (fr' : Option ℚ) (hstop : s'.stopped = true) :
    ((runRec (recInit st) trace).stopped = true ∨
       (runRec (recInit st) trace).lastFrameTime - (runRec (recInit st) trace).startTime
         < RECORDING_DURATION) ∧
    (runRec (recInit st) trace).frames.length ≤ 57 ∧
    recTick s' now' fr' = s' := by
  have hinv := runRec_framesInv trace (recInit st) (framesInv_init st)
  refine ⟨?_, framesInv_len _ hinv, recTick_stopped s' now' fr' hstop⟩
  cases hs : (runRec (recInit st) trace).stopped with
  | true => exact Or.inl rfl
  | false => exact Or.inr (hinv.1 hs).1

/-- Witness for C7's amended theorem at a concrete input. -/
theorem frames_append_bound_witness :
    ({ recInit 0 with stopped := true } : RSess).stopped = true ∧
    (((runRec (recInit 0) [(100, some 1)]).stopped = true ∨
       (runRec (recInit 0) [(100, some 1)]).lastFrameTime
           - (runRec (recInit 0) [(100, some 1)]).startTime < RECORDING_DURATION) ∧
     (runRec (recInit 0) [(100, some 1)]).frames.length ≤ 57 ∧
     recTick { recInit 0 with stopped := true } 200 (some 2)
       = { recInit 0 with stopped := true }) :=
  ⟨rfl, frames_append_bound 0 [(100, some 1)] { recInit 0 with stopped := true }
    200 (some 2) rfl⟩

/-! ### C8: progress reporting -/

theorem min_100_eq (x : ℚ) : min (x * 100) 100 = min x 1 * 100 := by
  rcases le_total x 1 with h | h
  · rw [min_eq_left (by nlinarith), min_eq_left h]
  · rw [min_eq_right (by nlinarith), min_eq_right h, one_mul]

/-- The value passed to `setRecordingProgress` by a live tick is exactly
the claim's formula `min(elapsed / duration, 1) × 100` (the source computes
`Math.min(elapsed / RECORDING_DURATION * 100, 100)`). -/
theorem recTick_reports (s : RSess) (t : ℚ) (f : Option ℚ) (hs : s.stopped = false) :
    (recTick s t f).reports = s.reports ++ [progressVal s.startTime t] := by
  have hv : min ((t - s.startTime) / RECORDING_DURATION * 100) 100
      = progressVal s.startTime t := by
    unfold progressVal
    exact min_100_eq ((t - s.startTime) / RECORDING_DURATION)
  unfold recTick
  simp only [hs, Bool.false_eq_true, if_false]
  cases f <;> dsimp only <;> split_ifs <;> simp [hv]

theorem progressVal_100 (start now : ℚ) (h : RECORDING_DURATION ≤ now - start) :
    progressVal start now = 100 := by
  unfold progressVal
  rw [min_eq_right, one_mul]
  rw [le_div_iff (by unfold RECORDING_DURATION; norm_num : (0 : ℚ) < RECORDING_DURATION)]
  linarith

/-- The tick times a session actually processes: every tick up to and
including the first one with `elapsed ≥ RECORDING_DURATION` (which clears
the interval). -/
def takeSession (start : ℚ) : List (ℚ × Option ℚ) → List ℚ
  | [] => []
  | p :: rest =>
    if RECORDING_DURATION ≤ p.1 - start then [p.1] else p.1 :: takeSession start rest

theorem takeSession_cons (start : ℚ) (p : ℚ × Option ℚ) (rest : List (ℚ × Option ℚ)) :
    takeSession start (p :: rest)
      = if RECORDING_DURATION ≤ p.1 - start then [p.1]
        else p.1 :: takeSession start rest := rfl

theorem runRec_reports (trace : List (ℚ × Option ℚ)) (s : RSess) (hs : s.stopped = false) :
    (runRec s trace).reports
      = s.reports ++ (takeSession s.startTime trace).map (progressVal s.startTime) := by
  induction trace generalizing s with
  | nil => simp [runRec, takeSession]
  | cons p rest ih =>
    have hstep : runRec s (p :: rest) = runRec (recTick s p.1 p.2) rest := rfl
    by_cases hterm : RECORDING_DURATION ≤ p.1 - s.startTime
    · have hstop2 : (recTick s p.1 p.2).stopped = true := by
        rw [recTick_stopped_after s p.1 p.2 hs]
        simp [hterm]
      rw [hstep, runRec_stopped rest _ hstop2, recTick_reports s p.1 p.2 hs,
        takeSession_cons, if_pos hterm]
      simp
    · have hstop2 : (recTick s p.1 p.2).stopped = false := by
        rw [recTick_stopped_after s p.1 p.2 hs]
        simp [hterm]
      have hst2 : (recTick s p.1 p.2).startTime = s.startTime := recTick_startTime s p.1 p.2
      rw [hstep, ih (recTick s p.1 p.2) hstop2, hst2, recTick_reports s p.1 p.2 hs,
        takeSession_cons, if_neg hterm]
      simp

theorem takeSession_sublist (start : ℚ) (trace : List (ℚ × Option ℚ)) :
    List.Sublist (takeSession start trace) (trace.map Prod.fst) := by
  induction trace with
  | nil => simp [takeSession]
  | cons p rest ih =>
    rw [takeSession_cons]
    split_ifs with h
    · exact List.Sublist.cons₂ p.1 (List.nil_sublist _)
    · exact List.Sublist.cons₂ p.1 ih

theorem progressVal_mono (start a b : ℚ) (h : a ≤ b) :
    progressVal start a ≤ progressVal start b := by
  unfold progressVal
  have h3 : (0 : ℚ) < RECORDING_DURATION := by
    unfold RECORDING_DURATION
    norm_num
  exact mul_le_mul_of_nonneg_right
    (min_le_min ((div_le_div_right h3).mpr (by linarith)) le_rfl) (by norm_num)

theorem runRec_reports_pairwise (st : ℚ) (trace : List (ℚ × Option ℚ))
    (hmono : trace.Pairwise (fun p q => p.1 ≤ q.1)) :
    ((runRec (recInit st) trace).reports).Pairwise (· ≤ ·) := by
  rw [runRec_reports trace (recInit st) rfl]
  have h1 : (trace.map Prod.fst).Pairwise (· ≤ ·) := List.pairwise_map.mpr hmono
  have h2 : (takeSession st trace).Pairwise (· ≤ ·) :=
    h1.sublist (takeSession_sublist st trace)
  have h3 : ((takeSession st trace).map (progressVal st)).Pairwise (· ≤ ·) := by
    rw [List.pairwise_map]
    exact h2.imp (progressVal_mono st _ _)
  show ((recInit st).reports ++ (takeSession st trace).map (progressVal st)).Pairwise (· ≤ ·)
  simpa [recInit] using h3

/-- C8: every live sampling tick — whether or not it accepts a frame —
reports a progress value equal to `min(elapsed / duration, 1) × 100`; a
tick with `elapsed ≥ RECORDING_DURATION` reports exactly 100; and across a
session whose tick times are non-decreasing, the sequence of reported
progress values is monotonically non-decreasing. (On the terminating tick
the stored progress is additionally reset to 0 as the recorder returns to
idle; the reports here are the per-tick `setRecordingProgress(progress)`
values.) -/
theorem progress_reporting (s s' : RSess) (now now' : ℚ) (fr fr' : Option ℚ)
    (st : ℚ) (trace : List (ℚ × Option ℚ))
    (hs : s.stopped = false) (hs' : s'.stopped = false)
    (hdur : RECORDING_DURATION ≤ now' - s'.startTime)
    (hmono : trace.Pairwise (fun p q => p.1 ≤ q.1)) :
    (recTick s now fr).reports = s.reports ++ [progressVal s.startTime now] ∧
    progressVal s'.startTime now' = 100 ∧
    (recTick s' now' fr').reports = s'.reports ++ [(100 : ℚ)] ∧
    ((runRec (recInit st) trace).reports).Pairwise (· ≤ ·) := by
  refine ⟨recTick_reports s now fr hs, progressVal_100 _ _ hdur, ?_,
    runRec_reports_pairwise st trace hmono⟩
  rw [recTick_reports s' now' fr' hs', progressVal_100 _ _ hdur]

/-- Witness for C8 at a concrete input. -/
theorem progress_reporting_witness :
    ((recInit 0).stopped = false ∧ (recInit 0).stopped = false ∧
     RECORDING_DURATION ≤ (3000 : ℚ) - (recInit 0).startTime ∧
     ([((100 : ℚ), some (1 : ℚ)), (200, none)].Pairwise (fun p q => p.1 ≤ q.1))) ∧
    ((recTick (recInit 0) 100 none).reports
        = (recInit 0).reports ++ [progressVal (recInit 0).startTime 100] ∧
     progressVal (recInit 0).startTime 3000 = 100 ∧
     (recTick (recInit 0) 3000 (some 1)).reports = (recInit 0).reports ++ [(100 : ℚ)] ∧
     ((runRec (recInit 0) [((100 : ℚ), some (1 : ℚ)), (200, none)]).reports).Pairwise (· ≤ ·)) :=
  ⟨⟨rfl, rfl, by with_unfolding_all decide, by with_unfolding_all decide⟩,
   progress_reporting (recInit 0) (recInit 0) 100 3000 none (some 1) 0
     [((100 : ℚ), some (1 : ℚ)), (200, none)] rfl rfl
     (by with_unfolding_all decide) (by with_unfolding_all decide)⟩

/-! ## WebcamField component state machine (countdown, stabilization, cancel)

Models the React component state (`isCountingDown`, `countdown`,
`isRecording`, `recordingProgress`), the ref `frameCollectorRef`, the
pending timers, and the per-session closures created by `startRecording`.
Interval ids start at 1 (browser timer ids are nonzero, so the source's
`if (frameCollectorRef.current)` is the `Option.isSome` test here). The
stabilization `setTimeout` handle is not stored anywhere by the source, so
the model only counts how many such timeouts are pending. -/

structure Sess where
  sid : ℕ
  startTime : ℚ
  lastFrameTime : ℚ
  frames : List ℚ
  timestamps : List ℚ
  active : Bool
deriving DecidableEq

structure WF where
  isCountingDown : Bool
  countdown : ℕ
  isRecording : Bool
  recordingProgress : ℚ
  frameCollector : Option ℕ
  countdownPending : Bool
  stabilizePending : ℕ
  sessions : List Sess
  nextId : ℕ
  delivered : List (List ℚ)
deriving DecidableEq

def wfInit : WF :=
  { isCountingDown := false, countdown := 0, isRecording := false,
    recordingProgress := 0, frameCollector := none, countdownPending := false,
    stabilizePending := 0, sessions := [], nextId := 1, delivered := [] }

/-- `startRecording`: schedules the stabilization `setTimeout` (whose
handle is not stored) and sets `isRecording` to true. -/
def startRecording (w : WF) : WF :=
  { w with stabilizePending := w.stabilizePending + 1, isRecording := true }

/-- The countdown `useEffect`: re-runs after every change of `countdown` or
`isCountingDown`; its cleanup clears the pending 1 s timeout, and it then
either schedules a new one (`isCountingDown && countdown > 0`) or, at zero,
calls `startRecording()` and resets `isCountingDown`. -/
def runCountdownEffect (w : WF) : WF :=
  if w.isCountingDown ∧ 0 < w.countdown then { w with countdownPending := true }
  else if w.isCountingDown ∧ w.countdown = 0 then
    startRecording { w with isCountingDown := false, countdownPending := false }
  else { w with countdownPending := false }

/-- `handleTry`: `setIsCountingDown(true); setCountdown(5)`. -/
def handleTry (w : WF) : WF :=
  runCountdownEffect { w with isCountingDown := true, countdown := 5 }

/-- One firing of the countdown timeout: `setCountdown(countdown - 1)`. -/
def countdownFire (w : WF) : WF :=
  if w.countdownPending then runCountdownEffect { w with countdown := w.countdown - 1 }
  else w

/-- `clearInterval(id)`. -/
def clearSessInterval (w : WF) (id : ℕ) : WF :=
  { w with sessions :=
      w.sessions.map (fun s => if s.sid = id then { s with active := false } else s) }

/-- `handleCancel`: resets the countdown state (whose effect cleanup clears
the countdown timeout) and, when `frameCollectorRef.current` is set, clears
that interval and resets the recording state. The stabilization timeout is
not cleared — its handle was never stored. -/
def handleCancel (w : WF) : WF :=
  let w1 := runCountdownEffect { w with isCountingDown := false, countdown := 0 }
  match w1.frameCollector with
  | some id =>
    { clearSessInterval w1 id with isRecording := false, recordingProgress := 0 }
  | none => w1

/-- The stabilization `setTimeout` body: creates the session closure
(`frames = []`, `frameTimestampsRef.current = []`,
`startTime = lastFrameTime = Date.now()`) and stores the new `setInterval`
id in `frameCollectorRef.current` — without clearing any previous one. -/
def stabilizeFire (w : WF) (now : ℚ) : WF :=
  if 0 < w.stabilizePending then
    { w with stabilizePending := w.stabilizePending - 1,
             sessions := w.sessions ++ [⟨w.nextId, now, now, [], [], true⟩],
             frameCollector := some w.nextId,
             nextId := w.nextId + 1 }
  else w

/-- The acceptance-and-push part of the interval callback, acting on the
closure of one session (same logic as `recTick`'s first stage). -/
def sessTickUpdate (s : Sess) (currentTime : ℚ) (frame : Option ℚ) : Sess :=
  match frame with
  | some f =>
    if |currentTime - s.lastFrameTime - frameInterval| < frameInterval * (0.2 : ℚ) then
      { s with frames := s.frames ++ [f], timestamps := s.timestamps ++ [currentTime],
               lastFrameTime := currentTime }
    else s
  | none => s

/-- One firing of session `sid`'s interval callback (it fires only while
its interval is active). On termination the code clears
`clearInterval(frameCollectorRef.current)` — the ref's current value, which
after a reentrant start may name a different interval — resets the
recording state and delivers this closure's `frames` via `onCapture`. -/
def sampleTick (w : WF) (sid : ℕ) (currentTime : ℚ) (frame : Option ℚ) : WF :=
  match w.sessions.find? (fun s => s.sid == sid) with
  | none => w
  | some s =>
    if s.active then
      let s1 := sessTickUpdate s currentTime frame
      let progress := min ((currentTime - s1.startTime) / RECORDING_DURATION * 100) 100
      let w1 := { w with
        sessions := w.sessions.map (fun t => if t.sid = sid then s1 else t),
        recordingProgress := progress }
      if RECORDING_DURATION ≤ currentTime - s1.startTime then
        let w2 :=
          match w1.frameCollector with
          | some cid => clearSessInterval w1 cid
          | none => w1
        { w2 with isRecording := false, recordingProgress := 0,
                  delivered := w2.delivered ++ [s1.frames] }
      else w1
    else w

inductive WEv where
  | tryIt
  | countdownFire
  | startRec
  | stabilizeFire (now : ℚ)
  | sampleTick (sid : ℕ) (now : ℚ) (frame : Option ℚ)
  | cancel
deriving DecidableEq

def wfStep (w : WF) : WEv → WF
  | WEv.tryIt => handleTry w
  | WEv.countdownFire => countdownFire w
  | WEv.startRec => startRecording w
  | WEv.stabilizeFire now => stabilizeFire w now
  | WEv.sampleTick sid now frame => sampleTick w sid now frame
  | WEv.cancel => handleCancel w

def runWF (evs : List WEv) : WF := evs.foldl wfStep wfInit

set_option maxRecDepth 8000

/-- Try; countdown 5 → 0 (which calls `startRecording`, scheduling the
stabilization timeout); cancel while stabilizing. -/
def cancelStabilizingTrace : List WEv :=
  [WEv.tryIt, WEv.countdownFire, WEv.countdownFire, WEv.countdownFire,
   WEv.countdownFire, WEv.countdownFire, WEv.cancel]

/-- The same session continued past the cancel: the un-cleared
stabilization timeout fires at t = 1000, the interval ticks at t = 1066
(frame accepted) and t = 4000 (elapsed 3000 ≥ duration: delivery). -/
def cancelStabilizingFullTrace : List WEv :=
  cancelStabilizingTrace ++
    [WEv.stabilizeFire 1000, WEv.sampleTick 1 1066 (some 1066),
     WEv.sampleTick 1 4000 (some 4000)]

/-- C3: cancelling during the stabilization delay does not clear the
pending stabilization timeout (its handle was never stored and, in a first
session, `frameCollectorRef.current` is still null so `handleCancel` resets
nothing at all): after the cancel the timeout is still pending and
`isRecording` is still true (not Idle), and once the timeout fires the
sampling interval runs to completion and delivers the frames to
`onCapture` — for the very session that was cancelled. Cancel on the idle
initial state is a no-op. -/
theorem cancel_stabilizing_delivers :
    (runWF cancelStabilizingTrace).stabilizePending = 1 ∧
    (runWF cancelStabilizingTrace).isRecording = true ∧
    (runWF cancelStabilizingFullTrace).delivered = [[1066]] ∧
    handleCancel wfInit = wfInit := by
  refine ⟨?_, ?_, ?_, ?_⟩ <;> with_unfolding_all decide

/-- Reentrant start: a second `startRecording` while the first session's
interval is still firing, both stabilization timeouts having fired. -/
def reentrantStartTrace : List WEv :=
  [WEv.startRec, WEv.stabilizeFire 0, WEv.sampleTick 1 66 (some 66),
   WEv.startRec, WEv.stabilizeFire 600]

/-- C9: a reentrant `startRecording` does NOT clear the prior sampling
interval — `frameCollectorRef.current = setInterval(...)` overwrites the
ref without a `clearInterval` — so after the second session starts, two
sampling intervals are active concurrently and the ref names only the new
one (the prior interval's handle is lost). -/
theorem reentrant_start_two_timers :
    ((runWF reentrantStartTrace).sessions.filter (fun s => s.active)).length = 2 ∧
    (runWF reentrantStartTrace).frameCollector = some 2 := by
  with_unfolding_all decide

end ASL
